import Mathlib

/-!
Verification development for the go-tvdb client library (package tvdb).

The repository is a thin HTTP/XML client: custom XML field decoders
(pipe-separated lists, nullable numerics, image flags, three time formats),
URL construction against thetvdb.com, and a small public method surface.

This file shallowly embeds the relevant functions:
* pure Go functions become Lean functions over String / List Char / Int / Nat;
* the XML layer is modelled at the level of decoded element text: each custom
  UnmarshalXML method receives the character data of its element (for the
  Rating decoder, the already-decoded inner struct);
* HTTP effects are modelled by passing the transport outcome (or a fetch
  oracle) as an explicit argument and returning the list of issued requests;
* Go errors become Except / explicit outcome types; a Go runtime panic
  (out-of-range slice index) is a distinguished outcome constructor;
* Go float64 values are idealised as exact rationals; Go int / int64 / uint64
  are Int / Nat with the explicit range checks that strconv performs.
-/

namespace GoTvdb

/-! ## Go strings primitives specialised to this code base

`strings.Trim(s, "|")`, `strings.Split(s, "|")` and `strings.Join(l, "|")`
as used by the pipeList decoder.  Go semantics: Split of the empty string is
a one-element list holding the empty string; Trim removes every leading and
trailing cut character.
-/

/-- Go `strings.Trim(s, "|")` on raw character lists: drop all leading and
all trailing pipe characters. -/
def trimPipes (l : List Char) : List Char :=
  ((l.dropWhile (fun c => c == '|')).reverse.dropWhile (fun c => c == '|')).reverse

/-- Go `strings.Split(s, "|")` on raw character lists (separator of length
one).  Splitting the empty string yields `[[]]`, one empty field. -/
def splitPipe : List Char → List (List Char)
  | [] => [[]]
  | c :: cs =>
    if c == '|' then
      [] :: splitPipe cs
    else
      match splitPipe cs with
      | [] => [[c]]
      | g :: gs => (c :: g) :: gs

/-- Go `strings.Join(l, "|")` on raw character lists. -/
def joinPipeChars : List (List Char) → List Char
  | [] => []
  | [g] => g
  | g :: gs => g ++ '|' :: joinPipeChars gs

/-- String wrapper for `trimPipes`: Go `strings.Trim(s, "|")`. -/
def goTrimPipe (s : String) : String := ⟨trimPipes s.data⟩

/-- String wrapper for `splitPipe`: Go `strings.Split(s, "|")`. -/
def goSplitPipe (s : String) : List String := (splitPipe s.data).map (fun g => ⟨g⟩)

/-- String wrapper for `joinPipeChars`: Go `strings.Join(l, "|")`. -/
def goJoinPipe (l : List String) : String := ⟨joinPipeChars (l.map String.data)⟩

/-- `pipeList.UnmarshalXML` (src/tvdb.go lines 17-30), given the decoded
string content of the element: empty contents yield the empty list, anything
else is split on the pipe after trimming leading and trailing pipes. -/
def pipeList_UnmarshalXML (content : String) : List String :=
  if content != "" then goSplitPipe (goTrimPipe content) else []

/-- The legacy `PipeList.UnmarshalXML` (src/unnamed/part_001 lines 18-26,
identical in part_002 and part_003): no guard for empty contents, the
element text is always trimmed of leading and trailing pipes and then
split on the pipe — so empty text becomes `strings.Split("", "|")`, the
one-element list holding the empty string. -/
def PipeList_UnmarshalXML (content : String) : List String :=
  goSplitPipe (goTrimPipe content)

/-! Basic lemmas about the split/join pair. -/

theorem splitPipe_ne_nil (l : List Char) : splitPipe l ≠ [] := by
  cases l with
  | nil => simp [splitPipe]
  | cons c cs =>
    by_cases h : c == '|'
    · simp [splitPipe, h]
    · simp only [splitPipe, h]
      rcases hs : splitPipe cs with _ | ⟨g, gs⟩ <;> simp

theorem joinPipeChars_splitPipe (l : List Char) :
    joinPipeChars (splitPipe l) = l := by
  induction l with
  | nil => rfl
  | cons c cs ih =>
    by_cases h : c == '|'
    · have hc : c = '|' := by simpa using h
      rcases hs : splitPipe cs with _ | ⟨g, gs⟩
      · exact absurd hs (splitPipe_ne_nil cs)
      · subst hc
        simp only [splitPipe, beq_self_eq_true, if_true, hs]
        have : joinPipeChars ([] :: g :: gs) = '|' :: joinPipeChars (g :: gs) := rfl
        rw [this, ← hs, ih]
    · rcases hs : splitPipe cs with _ | ⟨g, gs⟩
      · exact absurd hs (splitPipe_ne_nil cs)
      · simp only [splitPipe, h, hs, Bool.false_eq_true, if_false]
        cases gs with
        | nil =>
          have : joinPipeChars [c :: g] = c :: g := rfl
          rw [this]
          have hj : joinPipeChars (splitPipe cs) = cs := ih
          rw [hs] at hj
          have : joinPipeChars [g] = g := rfl
          rw [this] at hj
          rw [hj]
        | cons g2 gs2 =>
          have : joinPipeChars ((c :: g) :: g2 :: gs2)
              = (c :: g) ++ '|' :: joinPipeChars (g2 :: gs2) := rfl
          rw [this]
          have hj : joinPipeChars (splitPipe cs) = cs := ih
          rw [hs] at hj
          have : joinPipeChars (g :: g2 :: gs2)
              = g ++ '|' :: joinPipeChars (g2 :: gs2) := rfl
          rw [this] at hj
          simp [← hj]

/-! ## strconv models

`strconv.ParseInt(s, 10, 64)`, `strconv.ParseUint(s, 10, 64)` and
`strconv.ParseFloat(s, 64)` as far as this code base exercises them.
Results are `Option`: `none` stands for a non-nil `*strconv.NumError`
(syntax or range error); the error's `Num` field is always the input
string itself.  `ParseFloat` is idealised to exact rationals: no rounding
to binary64, and the `Inf`/`NaN`/hexadecimal/underscore spellings are out
of the model.
-/

/-- Numeric value of a digit list (most significant first); callers check
that every character is a decimal digit. -/
def digitsToNat (l : List Char) : Nat :=
  l.foldl (fun a c => a * 10 + (c.toNat - 48)) 0

/-- Go `strconv.ParseUint(s, 10, 64)`: nonempty decimal digits, value below
two to the 64th. -/
def goParseUint (s : String) : Option Nat :=
  let ds := s.data
  if ds.isEmpty || !ds.all Char.isDigit then none
  else
    let n := digitsToNat ds
    if n < 2 ^ 64 then some n else none

/-- Go `strconv.ParseInt(s, 10, 64)`: optional sign, nonempty decimal
digits, value in the int64 range. -/
def goParseInt (s : String) : Option Int :=
  match s.data with
  | [] => none
  | c :: rest =>
    let signed : Bool × List Char :=
      if c == '-' then (true, rest)
      else if c == '+' then (false, rest)
      else (false, c :: rest)
    let neg := signed.1
    let ds := signed.2
    if ds.isEmpty || !ds.all Char.isDigit then none
    else
      let n := digitsToNat ds
      if neg then
        if n ≤ 2 ^ 63 then some (-(n : Int)) else none
      else
        if n < 2 ^ 63 then some (n : Int) else none

/-- Exact rational value of a decimal float literal, from its sign,
integer-part digits, fraction digits and decimal exponent:
(ip.fp) times ten to the ex, as an exact rational. -/
def floatValue (neg : Bool) (ip fp : List Char) (ex : Int) : ℚ :=
  let m : Int := (digitsToNat ip * 10 ^ fp.length + digitsToNat fp : Nat)
  let q : ℚ :=
    if 0 ≤ ex then mkRat (m * 10 ^ ex.toNat) (10 ^ fp.length)
    else mkRat m (10 ^ fp.length * 10 ^ (-ex).toNat)
  if neg then -q else q

/-- Exponent suffix of a float literal: empty, or e/E with an optional sign
and nonempty digits.  Returns the decimal exponent. -/
def parseFloatExp : List Char → Option Int
  | [] => some 0
  | e :: rest =>
    if e == 'e' || e == 'E' then
      match rest with
      | [] => none
      | c :: ds =>
        let signed : Bool × List Char :=
          if c == '-' then (true, ds)
          else if c == '+' then (false, ds)
          else (false, c :: ds)
        if signed.2.isEmpty || !signed.2.all Char.isDigit then none
        else
          let n : Int := digitsToNat signed.2
          some (if signed.1 then -n else n)
    else none

/-- Go `strconv.ParseFloat(s, 64)` idealised to exact rationals: optional
sign, digits with an optional dot (at least one digit overall), optional
decimal exponent. -/
def goParseFloat (s : String) : Option ℚ :=
  match s.data with
  | [] => none
  | c :: rest =>
    let signed : Bool × List Char :=
      if c == '-' then (true, rest)
      else if c == '+' then (false, rest)
      else (false, c :: rest)
    let neg := signed.1
    let body := signed.2
    let ip := body.takeWhile Char.isDigit
    let afterInt := body.dropWhile Char.isDigit
    match afterInt with
    | '.' :: afterDot =>
      let fp := afterDot.takeWhile Char.isDigit
      let tail := afterDot.dropWhile Char.isDigit
      if ip.isEmpty && fp.isEmpty then none
      else
        match parseFloatExp tail with
        | some ex => some (floatValue neg ip fp ex)
        | none => none
    | tail =>
      if ip.isEmpty then none
      else
        match parseFloatExp tail with
        | some ex => some (floatValue neg ip [] ex)
        | none => none

/-! ## Nullable numerics (src/tvdb.go lines 80-134)

`nullInt` / `nullFloat64` pair a value with a validity flag.  Their
UnmarshalXML methods decode the element text as a number; a
`*strconv.NumError` whose `Num` field is the empty string (that is, empty
element text) yields the zero value `{0, false}`, any other error is
returned, and success stores the value with `Valid = true`.
-/

/-- Models `*strconv.NumError`: the `Num` field holds the string that was
passed to the failing strconv parse. -/
structure NumError where
  num : String
deriving DecidableEq, Repr

/-- `nullInt` (src/tvdb.go lines 80-83). -/
structure NullIntV where
  Value : Int
  Valid : Bool
deriving DecidableEq, Repr

/-- `nullFloat64` (src/tvdb.go lines 108-111). -/
structure NullFloat64V where
  Value : ℚ
  Valid : Bool
deriving DecidableEq, Repr

/-- `decoder.DecodeElement(&j, &start)` for an int target: the xml package
parses the element text with `strconv.ParseInt`; on failure the error is the
`*strconv.NumError` carrying that text. -/
def decodeIntElement (s : String) : Except NumError Int :=
  match goParseInt s with
  | some v => Except.ok v
  | none => Except.error ⟨s⟩

/-- `decoder.DecodeElement(&j, &start)` for a float64 target, via
`strconv.ParseFloat`. -/
def decodeFloatElement (s : String) : Except NumError ℚ :=
  match goParseFloat s with
  | some v => Except.ok v
  | none => Except.error ⟨s⟩

/-- `nullInt.UnmarshalXML` (src/tvdb.go lines 89-104) on the element text. -/
def nullInt_UnmarshalXML (s : String) : Except NumError NullIntV :=
  match decodeIntElement s with
  | Except.error nerr =>
    if nerr.num = "" then Except.ok ⟨0, false⟩ else Except.error nerr
  | Except.ok j => Except.ok ⟨j, true⟩

/-- `nullFloat64.UnmarshalXML` (src/tvdb.go lines 117-132) on the element
text. -/
def nullFloat64_UnmarshalXML (s : String) : Except NumError NullFloat64V :=
  match decodeFloatElement s with
  | Except.error nerr =>
    if nerr.num = "" then Except.ok ⟨0, false⟩ else Except.error nerr
  | Except.ok j => Except.ok ⟨j, true⟩

/-! ## The Rating decoder (src/tvdb.go lines 295-322)

In the GetRatingsForUser payload a series rating element carries its
identifier in `<seriesid>` (the series-style field) while an episode rating
element carries it in `<id>` (the episode-style field).  `Rating.UnmarshalXML`
first decodes into an auxiliary struct holding both, copies `id` into the
unified `ID`, then overwrites it with `seriesid` whenever `seriesid` is
non-zero.  An element that is absent from the payload leaves its int field
at zero, so the decoded inner struct represents presence by non-zero values.
-/

/-- The auxiliary struct inside `Rating.UnmarshalXML`: both identifier
fields plus the shared rating fields, as decoded from the XML element. -/
structure RatingPayload where
  ID : Int
  SeriesID : Int
  UserRating : Int
  CommunityRating : ℚ
deriving DecidableEq, Repr

/-- `Rating` (src/tvdb.go lines 295-299). -/
structure Rating where
  ID : Int
  UserRating : Int
  CommunityRating : ℚ
deriving DecidableEq, Repr

/-- `Rating.UnmarshalXML` (src/tvdb.go lines 303-322), applied to the
decoded auxiliary struct. -/
def Rating_UnmarshalXML (p : RatingPayload) : Rating :=
  let r : Rating := ⟨p.ID, p.UserRating, p.CommunityRating⟩
  if p.SeriesID ≠ 0 then { r with ID := p.SeriesID } else r

/-! ## net/url query encoding

`url.Values.Encode` sorts the keys byte-wise and joins
`escape(key)=escape(value)` pairs with ampersands.  `url.QueryEscape` keeps
ASCII letters, digits and `-_.~`, turns a space into a plus sign, and
percent-encodes every other byte of the UTF-8 form in uppercase hex.
-/

/-- UTF-8 bytes of one character. -/
def utf8Bytes (c : Char) : List Nat :=
  let n := c.toNat
  if n < 128 then [n]
  else if n < 2048 then [192 + n / 64, 128 + n % 64]
  else if n < 65536 then [224 + n / 4096, 128 + n / 64 % 64, 128 + n % 64]
  else [240 + n / 262144, 128 + n / 4096 % 64, 128 + n / 64 % 64, 128 + n % 64]

/-- Uppercase hex digit, for percent-encoding. -/
def hexDigitUpper (n : Nat) : Char :=
  if n < 10 then Char.ofNat (48 + n) else Char.ofNat (55 + n)

/-- Does `url.QueryEscape` leave this byte as it is?  True exactly for
ASCII letters, digits, and the four marks dash, underscore, dot, tilde. -/
def isUnreservedByte (b : Nat) : Bool :=
  (48 ≤ b && b ≤ 57) || (65 ≤ b && b ≤ 90) || (97 ≤ b && b ≤ 122) ||
    b == 45 || b == 95 || b == 46 || b == 126

/-- `url.QueryEscape` on one byte. -/
def escapeByte (b : Nat) : List Char :=
  if isUnreservedByte b then [Char.ofNat b]
  else if b == 32 then ['+']
  else ['%', hexDigitUpper (b / 16), hexDigitUpper (b % 16)]

/-- Go `url.QueryEscape`. -/
def queryEscape (s : String) : String :=
  ⟨((s.data.map utf8Bytes).flatten.map escapeByte).flatten⟩

/-- Byte-wise (here: character-wise, the keys are ASCII) lexicographic
order used by the sort inside `url.Values.Encode`. -/
def charsLe : List Char → List Char → Bool
  | [], _ => true
  | _ :: _, [] => false
  | a :: as, b :: bs =>
    if a.toNat < b.toNat then true
    else if b.toNat < a.toNat then false
    else charsLe as bs

/-- Insert one key/value pair into a key-sorted list. -/
def insertByKey (p : String × String) : List (String × String) → List (String × String)
  | [] => [p]
  | q :: qs => if charsLe p.1.data q.1.data then p :: q :: qs else q :: insertByKey p qs

/-- Sort key/value pairs by key (the sort `url.Values.Encode` performs). -/
def sortByKey : List (String × String) → List (String × String)
  | [] => []
  | p :: ps => insertByKey p (sortByKey ps)

/-- Join already-encoded `key=value` parts with ampersands. -/
def joinQueryParts : List String → String
  | [] => ""
  | [p] => p
  | p :: ps => p ++ "&" ++ joinQueryParts ps

/-- Go `url.Values.Encode` for values that hold one string per key (every
call site in this code base uses `Set`, never `Add`). -/
def valuesEncode (vs : List (String × String)) : String :=
  joinQueryParts ((sortByKey vs).map (fun p => queryEscape p.1 ++ "=" ++ queryEscape p.2))

/-- `Client.apiURL(path, query).String()` with the default base URL
`http://thetvdb.com` (src/tvdb.go lines 341-350 and 371-378): Go's
`URL.String` inserts the slash between the host and the relative path. -/
def apiURLString (path : String) (rawQuery : String) : String :=
  "http://thetvdb.com/" ++ "api/" ++ path ++ "?" ++ rawQuery

/-! ## setUserRating (src/tvdb.go lines 638-652)

The common helper behind `SetUserRatingSeries` and `SetUserRatingEp`.
The model returns the list of URLs fetched with HTTP GET (`getResponse`
performs exactly one GET for the URL it is given) together with the
validation error, if any: a validation failure returns before any request
is built, so its request list is empty.
-/

/-- Outcome of `Client.setUserRating`: the GET requests issued and the
validation error.  The response handling that follows a successful GET
belongs to `getResponse` and does not add or remove requests. -/
structure SetRatingOutcome where
  requests : List String
  validationError : Option String
deriving DecidableEq, Repr

/-- `Client.setUserRating` (src/tvdb.go lines 638-652). -/
def setUserRating (accountID itemType : String) (itemID rating : Int) : SetRatingOutcome :=
  if rating < 0 ∨ rating > 10 then
    ⟨[], some "Rating must be between 0 and 10 inclusive"⟩
  else
    let query := [("accountid", accountID), ("itemtype", itemType),
                  ("itemid", toString itemID), ("rating", toString rating)]
    ⟨[apiURLString "User_Rating.php" (valuesEncode query)], none⟩

/-- `Client.SetUserRatingSeries` (src/tvdb.go lines 655-657). -/
def SetUserRatingSeries (accountID : String) (seriesID rating : Int) : SetRatingOutcome :=
  setUserRating accountID "series" seriesID rating

/-- `Client.SetUserRatingEp` (src/tvdb.go lines 661-663). -/
def SetUserRatingEp (accountID : String) (epID rating : Int) : SetRatingOutcome :=
  setUserRating accountID "episode" epID rating

/-! ## getResponse (src/tvdb.go lines 353-369)

`Client.getResponse` performs the GET, fails on transport errors and on
any status other than 200, and otherwise XML-decodes the body into the
target.  The transport outcome is an explicit argument; the XML decoding
of the body into the target type is the stdlib's work, abstracted as a
`decode` argument.
-/

/-- Outcome of `http.Client.Get`: a transport error, or a response with a
status code and a body. -/
inductive HTTPResult where
  | transportError (err : String)
  | response (status : Int) (body : String)
deriving DecidableEq, Repr

/-- `Client.getResponse` (src/tvdb.go lines 353-369), returning the decoded
target on success.  An `Except.error` means the caller gets a non-nil error
and the target is never filled from the body. -/
def getResponse {α : Type} (url : String) (res : HTTPResult)
    (decode : String → Except String α) : Except String α :=
  match res with
  | HTTPResult.transportError e => Except.error e
  | HTTPResult.response status body =>
    if status ≠ 200 then
      Except.error ("Failed request for '" ++ url ++ "' got code '" ++ toString status ++ "'")
    else
      decode body

/-- Substring containment on strings, stated by explicit decomposition. -/
def strContains (s pat : String) : Prop :=
  ∃ a b : String, s = a ++ pat ++ b

/-! ## time.Time model

Go's `time.Date` normalises its arguments into an instant: October 32
becomes November 1, January 0 becomes December 31 of the previous year.
A `time.Time` is modelled (at second precision, always UTC — the only
location this code base uses) as days since 1970-01-01 plus the second of
the day; `Year`/`Month`/`Day` recover the proleptic Gregorian components
by the standard civil-calendar conversion, matching Go's `absDate`.
-/

/-- Gregorian leap year (Go `isLeap`). -/
def isLeapYear (y : Int) : Bool :=
  (y % 4 == 0 && y % 100 != 0) || y % 400 == 0

/-- Days in a month of a given year (Go `daysIn`). -/
def daysInMonth (m : Int) (y : Int) : Int :=
  if m == 2 then (if isLeapYear y then 29 else 28)
  else if m == 4 || m == 6 || m == 9 || m == 11 then 30
  else 31

/-- Days from 1970-01-01 to the civil date y-m-d (m in 1..12, d in 1..31;
the formula extends to every integer d, shifting by whole days). -/
def daysFromCivil (y m d : Int) : Int :=
  let y2 := if m ≤ 2 then y - 1 else y
  let era := Int.fdiv y2 400
  let yoe := y2 - era * 400
  let mp := (m + 9) % 12
  let doy := Int.fdiv (153 * mp + 2) 5 + d - 1
  let doe := yoe * 365 + Int.fdiv yoe 4 - Int.fdiv yoe 100 + doy
  era * 146097 + doe - 719468

/-- Civil date (year, month, day) of a count of days since 1970-01-01. -/
def civilFromDays (z : Int) : Int × Int × Int :=
  let z2 := z + 719468
  let era := Int.fdiv z2 146097
  let doe := z2 - era * 146097
  let yoe := Int.fdiv (doe - Int.fdiv doe 1460 + Int.fdiv doe 36524 - Int.fdiv doe 146096) 365
  let y := yoe + era * 400
  let doy := doe - (365 * yoe + Int.fdiv yoe 4 - Int.fdiv yoe 100)
  let mp := Int.fdiv (5 * doy + 2) 153
  let d := doy - Int.fdiv (153 * mp + 2) 5 + 1
  let m := if mp < 10 then mp + 3 else mp - 9
  (if m ≤ 2 then y + 1 else y, m, d)

/-- A `time.Time` instant in UTC at second precision: days since
1970-01-01 and the second of the day. -/
structure GoTime where
  days : Int
  secOfDay : Int
deriving DecidableEq, Repr

/-- Go `time.Date(year, month, day, hour, min, sec, 0, time.UTC)` with
full normalisation of out-of-range arguments. -/
def goTimeDate (year month day hour min sec : Int) : GoTime :=
  let m0 := month - 1
  let y := year + Int.fdiv m0 12
  let mm := Int.fmod m0 12 + 1
  let secs := hour * 3600 + min * 60 + sec
  let extraDays := Int.fdiv secs 86400
  let sod := Int.fmod secs 86400
  ⟨daysFromCivil y mm 1 + (day - 1) + extraDays, sod⟩

/-- `Time.Year()`. -/
def GoTime.year (t : GoTime) : Int := (civilFromDays t.days).1

/-- `Time.Month()` as its numeric value (January is 1). -/
def GoTime.month (t : GoTime) : Int := (civilFromDays t.days).2.1

/-- `Time.Day()`. -/
def GoTime.day (t : GoTime) : Int := (civilFromDays t.days).2.2

/-- `DateTime(year, month, day, hour, min, sec)` (src/tvdb.go lines
154-156): builds the wrapped `time.Date` value. -/
def DateTime (year month day hour min sec : Int) : GoTime :=
  goTimeDate year month day hour min sec

/-- `NullDateTime = DateTime(0, time.January, 0, 0, 0, 0)` (src/tvdb.go
line 175), the sentinel stored for empty timestamp text. -/
def NullDateTime : GoTime := DateTime 0 1 0 0 0 0

/-- Six parsed components of a `"2006-01-02 15:04:05"` timestamp. -/
structure DateTimeParts where
  year : Int
  month : Int
  day : Int
  hour : Int
  min : Int
  sec : Int
deriving DecidableEq, Repr

/-- Go `time.Parse("2006-01-02 15:04:05", ts)`: the text must be exactly
four digits, dash, two digits, dash, two digits, space, and three
colon-separated two-digit fields; the month, day (against the month
length), hour, minute and second are range-checked.  `none` models the
non-nil parse error. -/
def parseGoDateTime (s : String) : Option DateTimeParts :=
  match s.data with
  | [y1, y2, y3, y4, '-', m1, m2, '-', d1, d2, ' ',
     h1, h2, ':', n1, n2, ':', s1, s2] =>
    if [y1, y2, y3, y4, m1, m2, d1, d2, h1, h2, n1, n2, s1, s2].all Char.isDigit then
      let y : Int := digitsToNat [y1, y2, y3, y4]
      let mo : Int := digitsToNat [m1, m2]
      let d : Int := digitsToNat [d1, d2]
      let h : Int := digitsToNat [h1, h2]
      let mi : Int := digitsToNat [n1, n2]
      let se : Int := digitsToNat [s1, s2]
      if 1 ≤ mo && mo ≤ 12 && 1 ≤ d && d ≤ daysInMonth mo y &&
          h ≤ 23 && mi ≤ 59 && se ≤ 59 then
        some ⟨y, mo, d, h, mi, se⟩
      else none
    else none
  | _ => none

/-- `dateTime.UnmarshalXML` (src/tvdb.go lines 158-173) on the element
text: empty text stores the `NullDateTime` sentinel, otherwise the text is
parsed with the fixed layout and a parse failure is returned as the
error. -/
def dateTime_UnmarshalXML (s : String) : Except Unit GoTime :=
  if s = "" then Except.ok NullDateTime
  else
    match parseGoDateTime s with
    | some p => Except.ok (goTimeDate p.year p.month p.day p.hour p.min p.sec)
    | none => Except.error ()

/-! ## User ratings result handling (src/tvdb.go lines 591-634)

`ratingResult` collects the `<Series>` and `<Episode>` rating elements.
`UserRatingsSeries` indexes `result.SerRatings[0]` with no emptiness
check: on an empty slice Go raises an index-out-of-range runtime panic.
The outcome type makes the three possible behaviours of such Go code
explicit — normal return, returned error, runtime panic.
-/

/-- `ratingResult` (src/tvdb.go lines 591-594). -/
structure RatingResult where
  SerRatings : List Rating
  EpRatings : List Rating
deriving DecidableEq, Repr

/-- Possible outcomes of a Go function returning `(T, error)`: a value
with a nil error, a non-nil error, or a runtime panic. -/
inductive GoOutcome (α : Type) where
  | ok (val : α)
  | err (msg : String)
  | panic (msg : String)
deriving DecidableEq, Repr

/-- The result handling of `Client.UserRatingsSeries` (src/tvdb.go lines
627-634) after a successful fetch: `return result.SerRatings[0],
result.EpRatings, nil`, where the indexing panics on an empty slice. -/
def UserRatingsSeries_result (result : RatingResult) : GoOutcome (Rating × List Rating) :=
  match result.SerRatings with
  | [] => GoOutcome.panic "runtime error: index out of range [0] with length 0"
  | r :: _ => GoOutcome.ok (r, result.EpRatings)

/-! ## The legacy variant (src/unnamed/part_002 and part_003)

`TVDB.GetSeriesFull` groups the flat decoded episode list into the
`Seasons` map; `TVDB.SearchSeries` scrapes series ids out of HTML.  The
`Episode` and `Series` records are this variant's (uint64 fields become
Nat, strings stay strings, the pipe lists become string lists).
-/

/-- Legacy `Episode` (src/unnamed/part_002 lines 29-59). -/
structure LegacyEpisode where
  ID : Nat := 0
  CombinedEpisodeNumber : String := ""
  CombinedSeason : Nat := 0
  DvdChapter : String := ""
  DvdDiscID : String := ""
  DvdEpisodeNumber : String := ""
  DvdSeason : String := ""
  Director : List String := []
  EpImgFlag : String := ""
  EpisodeName : String := ""
  EpisodeNumber : Nat := 0
  FirstAired : String := ""
  GuestStars : String := ""
  ImdbID : String := ""
  Language : String := ""
  Overview : String := ""
  ProductionCode : String := ""
  Rating : String := ""
  RatingCount : String := ""
  SeasonNumber : Nat := 0
  Writer : List String := []
  AbsoluteNumber : String := ""
  Filename : String := ""
  LastUpdated : String := ""
  SeasonID : Nat := 0
  SeriesID : Nat := 0
  ThumbAdded : String := ""
  ThumbHeight : String := ""
  ThumbWidth : String := ""
deriving DecidableEq, Repr

/-- The `Seasons` map of a legacy `Series`: `map[uint64][]*Episode`,
modelled extensionally (a missing key reads as the nil slice, so the map
is a total function into lists); `none` is Go's nil map. -/
def SeasonsMap : Type := Nat → List LegacyEpisode

/-- Legacy `Series` (src/unnamed/part_002 lines 62-89). -/
structure LegacySeries where
  ID : Nat := 0
  Actors : List String := []
  AirsDayOfWeek : String := ""
  AirsTime : String := ""
  ContentRating : String := ""
  FirstAired : String := ""
  Genre : List String := []
  ImdbID : String := ""
  Language : String := ""
  Network : String := ""
  NetworkID : String := ""
  Overview : String := ""
  Rating : String := ""
  RatingCount : String := ""
  Runtime : String := ""
  SeriesID : String := ""
  SeriesName : String := ""
  Status : String := ""
  Added : String := ""
  AddedBy : String := ""
  Banner : String := ""
  Fanart : String := ""
  LastUpdated : String := ""
  Poster : String := ""
  Zap2ItID : String := ""
  Seasons : Option SeasonsMap := none

/-- Legacy `Data` (src/unnamed/part_002 lines 99-102): the decoded
response body. -/
structure LegacyData where
  Series : List LegacySeries
  Episodes : List LegacyEpisode

/-- The grouping loop of `TVDB.GetSeriesFull` (src/unnamed/part_002 lines
219-221): each episode is appended to the season list keyed by its
`SeasonNumber`. -/
def appendEpisode (m : SeasonsMap) (e : LegacyEpisode) : SeasonsMap :=
  fun k => if k = e.SeasonNumber then m e.SeasonNumber ++ [e] else m k

/-- `TVDB.GetSeriesFull` (src/unnamed/part_002 lines 203-223) after a
successful fetch and decode: reject responses without exactly one series,
replace a nil `Seasons` map by an empty one, then fold the episode list
through `appendEpisode`. -/
def GetSeriesFull_result (data : LegacyData) : Except String LegacySeries :=
  match data.Series with
  | [series] =>
    let init : SeasonsMap := match series.Seasons with
      | none => fun _ => []
      | some m => m
    Except.ok { series with Seasons := some (data.Episodes.foldl appendEpisode init) }
  | l => Except.error ("Got too many series (expected: 1, got: " ++ toString l.length ++ ")")

/-- Outcome of the `t.GetSeriesByID(seriesID)` call inside the legacy
`SearchSeries`: success, an `*xml.SyntaxError` (which the loop swallows),
or any other error (which aborts the loop). -/
inductive FetchResult where
  | ok (series : LegacySeries)
  | syntaxError (msg : String)
  | otherError (msg : String)

/-- The scan loop of `TVDB.SearchSeries` (src/unnamed/part_002 lines
256-280) over the regex captures: ids that fail `strconv.ParseUint` or
fetch with an `*xml.SyntaxError` are skipped, any other fetch error
returns the current slice together with the error, and each fetched
series is appended — with a break once the length equals `maxResults`. -/
def searchSeriesLoop (fetch : Nat → FetchResult) (maxResults : Nat) :
    List String → List LegacySeries → List LegacySeries × Option String
  | [], acc => (acc, none)
  | idText :: rest, acc =>
    match goParseUint idText with
    | none => searchSeriesLoop fetch maxResults rest acc
    | some id =>
      match fetch id with
      | FetchResult.syntaxError _ => searchSeriesLoop fetch maxResults rest acc
      | FetchResult.otherError e => (acc, some e)
      | FetchResult.ok series =>
        let acc2 := acc ++ [series]
        if acc2.length = maxResults then (acc2, none)
        else searchSeriesLoop fetch maxResults rest acc2

/-- The zero value of the legacy `Series` struct: every field empty,
the `Seasons` map nil. -/
def zeroLegacySeries : LegacySeries := {}

/-- `TVDB.SearchSeries` (src/unnamed/part_002 lines 229-282) from the
point where the page has been scraped: `results` holds the digit strings
captured by the regex, `maxResults` is clamped to the number of matches,
and the result slice is pre-allocated with `make([]Series, maxResults)` —
`maxResults` zero values — before the loop appends to it.  (A negative
`maxResults` argument would make `make` panic; the model takes a Nat.) -/
def SearchSeries_model (fetch : Nat → FetchResult) (results : List String)
    (maxResults : Nat) : List LegacySeries × Option String :=
  let clamped := if results.length < maxResults then results.length else maxResults
  searchSeriesLoop fetch clamped results (List.replicate clamped zeroLegacySeries)

/-- The series every id fetches successfully to, in scrape order: the
elements the loop actually appends when no hard error interrupts it. -/
def collectFetched (fetch : Nat → FetchResult) : List String → List LegacySeries
  | [] => []
  | idText :: rest =>
    match goParseUint idText with
    | none => collectFetched fetch rest
    | some id =>
      match fetch id with
      | FetchResult.ok series => series :: collectFetched fetch rest
      | _ => collectFetched fetch rest

/-! ## Claim C1: the unified rating identifier

In the wire format the series-style identifier element is `<seriesid>` and
the episode-style identifier element is `<id>` (the `ratingResult` struct
maps `<Series>` elements to series ratings and `<Episode>` elements to
episode ratings).  When only one of the two is set the decoder returns it,
but when both are non-zero the `if rating.SeriesID != 0` overwrite makes
the series-style field win, not the episode-style field.
-/

/-- C1 counterexample: in a payload whose episode-style field `id` is 5 and
whose series-style field `seriesid` is 7 — both present and non-zero — the
decoded unified identifier is the series-style value 7, not the
episode-style value 5 claimed. -/
theorem Rating_UnmarshalXML_prefers_seriesid :
    (5 : Int) ≠ 0 ∧ (7 : Int) ≠ 0 ∧
      (Rating_UnmarshalXML ⟨5, 7, 8, 9⟩).ID ≠ 5 ∧
      (Rating_UnmarshalXML ⟨5, 7, 8, 9⟩).ID = 7 := by
  decide

/-- C1 (amended): if only the series-style element `seriesid` is set the
decoded unified ID equals it, if only the episode-style element `id` is set
the decoded unified ID equals it, and when both are present and non-zero
the series-style field `seriesid` is preferred. -/
theorem Rating_UnmarshalXML_unified_id (i s ur : Int) (cr : ℚ) :
    (Rating_UnmarshalXML ⟨0, s, ur, cr⟩).ID = s ∧
    (Rating_UnmarshalXML ⟨i, 0, ur, cr⟩).ID = i ∧
    (i ≠ 0 → s ≠ 0 → (Rating_UnmarshalXML ⟨i, s, ur, cr⟩).ID = s) := by
  refine ⟨?_, ?_, ?_⟩
  · by_cases hs : s = 0 <;> simp [Rating_UnmarshalXML, hs]
  · simp [Rating_UnmarshalXML]
  · intro _ hs
    simp [Rating_UnmarshalXML, hs]

/-- C1 witness: the amended theorem applied at concrete payloads. -/
theorem Rating_UnmarshalXML_unified_id_witness :
    (Rating_UnmarshalXML ⟨0, 42, 1, 2⟩).ID = 42 ∧
    (Rating_UnmarshalXML ⟨13, 0, 1, 2⟩).ID = 13 ∧
    ((13 : Int) ≠ 0 → (42 : Int) ≠ 0 → (Rating_UnmarshalXML ⟨13, 42, 1, 2⟩).ID = 42) := by
  refine ⟨(Rating_UnmarshalXML_unified_id 13 42 1 2).1,
          (Rating_UnmarshalXML_unified_id 13 42 1 2).2.1, ?_⟩
  intro h1 h2
  exact (Rating_UnmarshalXML_unified_id 13 42 1 2).2.2 h1 h2

/-! ## Claim C2: the pipe-list decode

The claim covers both cited implementations.  The current
`pipeList.UnmarshalXML` (src/tvdb.go) guards empty contents and yields the
empty list; the legacy `PipeList.UnmarshalXML` (src/unnamed/part_001) has
no such guard, and on empty element text it returns
`strings.Split(strings.Trim("", "|"), "|")` — exactly the one-element
list containing the empty string that the claim says is never produced.
-/

/-- C2 counterexample: on empty element text the legacy pipe-list decoder
of src/unnamed/part_001 yields the one-element list containing the empty
string, not the empty list the claim states for every decoder. -/
theorem PipeList_UnmarshalXML_empty_not_nil :
    PipeList_UnmarshalXML "" = [""] ∧ PipeList_UnmarshalXML "" ≠ [] := by
  decide

/-- C2 (amended): on non-empty element text both decoders yield the list
obtained by trimming leading and trailing pipes and splitting on the pipe;
on empty element text the guarded decoder of src/tvdb.go yields the empty
list, while the unguarded legacy decoder of src/unnamed/part_001 yields
the one-element list containing the empty string. -/
theorem pipeList_decode_variants :
    (pipeList_UnmarshalXML "" = []) ∧
    (PipeList_UnmarshalXML "" = [""]) ∧
    (∀ s : String, s ≠ "" →
      pipeList_UnmarshalXML s = goSplitPipe (goTrimPipe s) ∧
      PipeList_UnmarshalXML s = goSplitPipe (goTrimPipe s)) := by
  refine ⟨rfl, by decide, ?_⟩
  intro s hs
  exact ⟨by simp [pipeList_UnmarshalXML, hs], rfl⟩

/-- C2 witness: the amended theorem applied at a concrete non-empty
input. -/
theorem pipeList_decode_variants_witness :
    pipeList_UnmarshalXML "" = [] ∧
    PipeList_UnmarshalXML "" = [""] ∧
    (pipeList_UnmarshalXML "|a|b||c|" = goSplitPipe (goTrimPipe "|a|b||c|") ∧
      PipeList_UnmarshalXML "|a|b||c|" = goSplitPipe (goTrimPipe "|a|b||c|")) :=
  ⟨pipeList_decode_variants.1, pipeList_decode_variants.2.1,
   pipeList_decode_variants.2.2 "|a|b||c|" (by decide)⟩

/-! ## Claim C3: the nullable-numeric decodes -/

/-- C3: for both nullable-numeric decoders, empty element text yields the
absent state with a zero underlying value, text that parses as a number
yields the present state carrying exactly that value, and non-empty text
that does not parse is returned as the decode error. -/
theorem nullNumeric_UnmarshalXML_spec :
    (nullInt_UnmarshalXML "" = Except.ok ⟨0, false⟩) ∧
    (∀ s : String, ∀ v : Int, goParseInt s = some v →
      nullInt_UnmarshalXML s = Except.ok ⟨v, true⟩) ∧
    (∀ s : String, s ≠ "" → goParseInt s = none →
      nullInt_UnmarshalXML s = Except.error ⟨s⟩) ∧
    (nullFloat64_UnmarshalXML "" = Except.ok ⟨0, false⟩) ∧
    (∀ s : String, ∀ v : ℚ, goParseFloat s = some v →
      nullFloat64_UnmarshalXML s = Except.ok ⟨v, true⟩) ∧
    (∀ s : String, s ≠ "" → goParseFloat s = none →
      nullFloat64_UnmarshalXML s = Except.error ⟨s⟩) := by
  refine ⟨rfl, ?_, ?_, rfl, ?_, ?_⟩
  · intro s v h
    simp [nullInt_UnmarshalXML, decodeIntElement, h]
  · intro s hs h
    simp [nullInt_UnmarshalXML, decodeIntElement, h, hs]
  · intro s v h
    simp [nullFloat64_UnmarshalXML, decodeFloatElement, h]
  · intro s hs h
    simp [nullFloat64_UnmarshalXML, decodeFloatElement, h, hs]

/-- C3 witness: the theorem applied at concrete inputs — empty text, the
int 42, the non-number x, and the float 4.5. -/
theorem nullNumeric_UnmarshalXML_spec_witness :
    (nullInt_UnmarshalXML "" = Except.ok ⟨0, false⟩) ∧
    (nullInt_UnmarshalXML "42" = Except.ok ⟨42, true⟩) ∧
    (nullInt_UnmarshalXML "x" = Except.error ⟨"x"⟩) ∧
    (nullFloat64_UnmarshalXML "4.5" = Except.ok ⟨mkRat 9 2, true⟩) ∧
    (nullFloat64_UnmarshalXML "x" = Except.error ⟨"x"⟩) :=
  ⟨nullNumeric_UnmarshalXML_spec.1,
   nullNumeric_UnmarshalXML_spec.2.1 "42" 42 (by decide),
   nullNumeric_UnmarshalXML_spec.2.2.1 "x" (by decide) (by decide),
   nullNumeric_UnmarshalXML_spec.2.2.2.2.1 "4.5" (mkRat 9 2) (by decide),
   nullNumeric_UnmarshalXML_spec.2.2.2.2.2 "x" (by decide) (by decide)⟩

/-! ## Claim C4: rating validation and the issued request -/

/-- String.data of a mk is the underlying list. -/
theorem data_mk (l : List Char) : (String.mk l).data = l := rfl

/-- C4: a rating outside 0..10 fails validation with no HTTP request
issued; a rating within 0..10 issues exactly one HTTP GET for the
User_Rating.php URL whose query string contains rating=r. -/
theorem setUserRating_spec (accountID itemType : String) (itemID rating : Int) :
    ((rating < 0 ∨ rating > 10) →
      setUserRating accountID itemType itemID rating =
        ⟨[], some "Rating must be between 0 and 10 inclusive"⟩) ∧
    (0 ≤ rating → rating ≤ 10 →
      ∃ q, setUserRating accountID itemType itemID rating =
          ⟨[apiURLString "User_Rating.php" q], none⟩ ∧
        strContains q ("rating=" ++ toString rating)) := by
  constructor
  · intro h
    simp [setUserRating, h]
  · intro h1 h2
    have hcond : ¬(rating < 0 ∨ rating > 10) := by omega
    refine ⟨valuesEncode [("accountid", accountID), ("itemtype", itemType),
      ("itemid", toString itemID), ("rating", toString rating)], ?_, ?_⟩
    · simp [setUserRating, hcond]
    · have hq : valuesEncode [("accountid", accountID), ("itemtype", itemType),
          ("itemid", toString itemID), ("rating", toString rating)] =
          queryEscape "accountid" ++ "=" ++ queryEscape accountID ++ "&" ++
            (queryEscape "itemid" ++ "=" ++ queryEscape (toString itemID) ++ "&" ++
              (queryEscape "itemtype" ++ "=" ++ queryEscape itemType ++ "&" ++
                (queryEscape "rating" ++ "=" ++ queryEscape (toString rating)))) := rfl
      have hkey : queryEscape "rating" = "rating" := rfl
      have hval : queryEscape (toString rating) = toString rating := by
        interval_cases rating <;> rfl
      have hpat : ("rating=" : String) = "rating" ++ "=" := rfl
      rw [hq, hkey, hval, hpat]
      refine ⟨queryEscape "accountid" ++ "=" ++ queryEscape accountID ++ "&" ++
        (queryEscape "itemid" ++ "=" ++ queryEscape (toString itemID) ++ "&" ++
          (queryEscape "itemtype" ++ "=" ++ queryEscape itemType ++ "&")), "", ?_⟩
      apply String.ext
      simp [String.data_append, List.append_assoc]

/-- C4 witness: the theorem applied with rating 11 (validation failure, no
request) and rating 7 (one request whose query contains rating=7). -/
theorem setUserRating_spec_witness :
    setUserRating "acct" "series" 5 11 =
      ⟨[], some "Rating must be between 0 and 10 inclusive"⟩ ∧
    ∃ q, setUserRating "acct" "series" 5 7 =
        ⟨[apiURLString "User_Rating.php" q], none⟩ ∧
      strContains q ("rating=" ++ toString (7 : Int)) :=
  ⟨(setUserRating_spec "acct" "series" 5 11).1 (Or.inr (by decide)),
   (setUserRating_spec "acct" "series" 5 7).2 (by decide) (by decide)⟩

/-! ## Claim C5: getResponse failure handling -/

/-- C5: a transport failure is returned to the caller unchanged; a non-200
status yields an error whose message contains both the requested URL and
the status code, with the body never decoded into the target (the result
is the same error whatever the body or decoder). -/
theorem getResponse_spec {α : Type} (url : String) (decode : String → Except String α) :
    (∀ e, getResponse url (HTTPResult.transportError e) decode = Except.error e) ∧
    (∀ status : Int, ∀ body : String, status ≠ 200 →
      getResponse url (HTTPResult.response status body) decode =
        Except.error ("Failed request for '" ++ url ++ "' got code '" ++
          toString status ++ "'") ∧
      strContains ("Failed request for '" ++ url ++ "' got code '" ++
        toString status ++ "'") url ∧
      strContains ("Failed request for '" ++ url ++ "' got code '" ++
        toString status ++ "'") (toString status)) := by
  constructor
  · intro e
    rfl
  · intro status body h
    refine ⟨by simp [getResponse, h], ?_, ?_⟩
    · refine ⟨"Failed request for '", "' got code '" ++ toString status ++ "'", ?_⟩
      apply String.ext
      simp [String.data_append, List.append_assoc]
    · refine ⟨"Failed request for '" ++ url ++ "' got code '", "'", ?_⟩
      apply String.ext
      simp [String.data_append, List.append_assoc]

/-- C5 witness: the theorem applied at a transport error and at a 404
response with a decoder that would otherwise succeed. -/
theorem getResponse_spec_witness :
    (getResponse "http://thetvdb.com/x" (HTTPResult.transportError "connection refused")
        (fun _ => Except.ok (0 : Int)) = Except.error "connection refused") ∧
    (getResponse "http://thetvdb.com/x" (HTTPResult.response 404 "<Data/>")
        (fun _ => Except.ok (0 : Int)) =
      Except.error ("Failed request for '" ++ "http://thetvdb.com/x" ++
        "' got code '" ++ toString (404 : Int) ++ "'") ∧
      strContains ("Failed request for '" ++ "http://thetvdb.com/x" ++
        "' got code '" ++ toString (404 : Int) ++ "'") "http://thetvdb.com/x" ∧
      strContains ("Failed request for '" ++ "http://thetvdb.com/x" ++
        "' got code '" ++ toString (404 : Int) ++ "'") (toString (404 : Int))) :=
  ⟨(getResponse_spec "http://thetvdb.com/x" (fun _ => Except.ok (0 : Int))).1
      "connection refused",
   (getResponse_spec "http://thetvdb.com/x" (fun _ => Except.ok (0 : Int))).2
      404 "<Data/>" (by decide)⟩

/-! ## Claim C6: the timestamp decode and its null sentinel

`NullDateTime` is built by `time.Date(0, time.January, 0, ...)`; Go's
`time.Date` normalises out-of-range arguments, and January 0 of year 0 is
the day before January 1 of year 0 — December 31 of year -1.  The value's
calendar components are therefore year -1, December, day 31, not the
year 0 / January / day 0 the constructor call mentions.
-/

/-- C6 counterexample: empty text does decode to the `NullDateTime`
sentinel, but that value's calendar components are not year 0, January,
day-of-month 0 — normalisation turns them into year -1, December 31. -/
theorem NullDateTime_components_normalised :
    dateTime_UnmarshalXML "" = Except.ok NullDateTime ∧
    ¬(NullDateTime.year = 0 ∧ NullDateTime.month = 1 ∧ NullDateTime.day = 0) ∧
    NullDateTime.year = -1 ∧ NullDateTime.month = 12 ∧ NullDateTime.day = 31 :=
  ⟨rfl, by decide, by decide⟩

/-- C6 (amended): empty element text yields exactly the fixed sentinel
`NullDateTime`, which is constructed as DateTime(0, January, 0, 0, 0, 0)
and whose (normalised) calendar components are year -1, December, day 31;
non-empty text matching the fixed layout 2006-01-02 15:04:05 yields the
corresponding time; non-matching non-empty text is a decode error. -/
theorem dateTime_UnmarshalXML_spec :
    (dateTime_UnmarshalXML "" = Except.ok NullDateTime) ∧
    (NullDateTime = DateTime 0 1 0 0 0 0) ∧
    (NullDateTime.year = -1 ∧ NullDateTime.month = 12 ∧ NullDateTime.day = 31) ∧
    (∀ s : String, ∀ p : DateTimeParts, parseGoDateTime s = some p →
      dateTime_UnmarshalXML s =
        Except.ok (goTimeDate p.year p.month p.day p.hour p.min p.sec)) ∧
    (∀ s : String, s ≠ "" → parseGoDateTime s = none →
      dateTime_UnmarshalXML s = Except.error ()) := by
  refine ⟨rfl, rfl, by decide, ?_, ?_⟩
  · intro s p h
    have hs : s ≠ "" := by
      intro he
      subst he
      simp [parseGoDateTime] at h
    simp [dateTime_UnmarshalXML, hs, h]
  · intro s hs h
    simp [dateTime_UnmarshalXML, hs, h]

/-- C6 witness: the amended theorem applied at a matching timestamp and at
malformed text. -/
theorem dateTime_UnmarshalXML_spec_witness :
    dateTime_UnmarshalXML "2015-01-27 21:46:38" =
      Except.ok (goTimeDate 2015 1 27 21 46 38) ∧
    dateTime_UnmarshalXML "not a timestamp" = Except.error () :=
  ⟨dateTime_UnmarshalXML_spec.2.2.2.1 "2015-01-27 21:46:38"
      ⟨2015, 1, 27, 21, 46, 38⟩ (by decide),
   dateTime_UnmarshalXML_spec.2.2.2.2 "not a timestamp" (by decide) (by decide)⟩

/-! ## Claim C7: decode-then-rejoin round-trips the trimmed input -/

/-- C7: for every non-empty element text, joining the decoded pipe list
back together with the pipe separator reproduces the input with its
leading and trailing pipes trimmed. -/
theorem pipeList_decode_rejoin (s : String) (hs : s ≠ "") :
    goJoinPipe (pipeList_UnmarshalXML s) = goTrimPipe s := by
  have h1 : pipeList_UnmarshalXML s = goSplitPipe (goTrimPipe s) := by
    simp [pipeList_UnmarshalXML, hs]
  rw [h1]
  apply String.ext
  show (goJoinPipe (goSplitPipe (goTrimPipe s))).data = (goTrimPipe s).data
  unfold goJoinPipe goSplitPipe
  rw [data_mk, List.map_map]
  have hmap : (String.data ∘ fun g => String.mk g) = id := rfl
  rw [hmap, List.map_id]
  exact joinPipeChars_splitPipe (goTrimPipe s).data

/-- C7 witness: the theorem applied at a concrete pipe-delimited input. -/
theorem pipeList_decode_rejoin_witness :
    goJoinPipe (pipeList_UnmarshalXML "|a|b||c|") = goTrimPipe "|a|b||c|" :=
  pipeList_decode_rejoin "|a|b||c|" (by decide)

/-! ## Claim C8: GetSeriesFull groups episodes by season -/

/-- The grouping fold: starting from any map, the list stored at key k is
what was there before followed by the episodes whose SeasonNumber is k,
in their original relative order. -/
theorem foldl_appendEpisode (es : List LegacyEpisode) (m : SeasonsMap) (k : Nat) :
    (es.foldl appendEpisode m) k = m k ++ es.filter (fun e => e.SeasonNumber == k) := by
  induction es generalizing m with
  | nil => simp
  | cons e es ih =>
    simp only [List.foldl_cons, List.filter_cons]
    rw [ih]
    by_cases hk : e.SeasonNumber = k
    · subst hk
      simp [appendEpisode]
    · have hb : (e.SeasonNumber == k) = false := by simp [hk]
      have hk2 : ¬(k = e.SeasonNumber) := fun hh => hk hh.symm
      simp [appendEpisode, hb, hk2]

/-- C8: on a successfully decoded full-series response (one series record,
whose Seasons map is nil as decoded, and the flat episode list es),
GetSeriesFull returns the series with a Seasons mapping whose list at
every season number k is exactly the sublist of es with SeasonNumber k in
its original order — so every episode of es appears exactly once under its
own season key, relative order is kept, and no episode is dropped or
invented. -/
theorem GetSeriesFull_groups_by_season (series : LegacySeries)
    (es : List LegacyEpisode) (h : series.Seasons = none) :
    ∃ out, GetSeriesFull_result ⟨[series], es⟩ = Except.ok out ∧
      ∃ m, out.Seasons = some m ∧
        ∀ k, m k = es.filter (fun e => e.SeasonNumber == k) := by
  refine ⟨{ series with Seasons := some (es.foldl appendEpisode (fun _ => [])) }, ?_, ?_⟩
  · simp [GetSeriesFull_result, h]
  · refine ⟨es.foldl appendEpisode (fun _ => []), rfl, ?_⟩
    intro k
    simpa using foldl_appendEpisode es (fun _ => []) k

/-- C8 witness: the theorem applied to a zero-value series and three
concrete episodes spanning two seasons. -/
theorem GetSeriesFull_groups_by_season_witness :
    ∃ out, GetSeriesFull_result ⟨[{}],
        [{ ID := 1, SeasonNumber := 2 }, { ID := 2, SeasonNumber := 1 },
         { ID := 3, SeasonNumber := 2 }]⟩ = Except.ok out ∧
      ∃ m, out.Seasons = some m ∧
        ∀ k, m k = [({ ID := 1, SeasonNumber := 2 } : LegacyEpisode),
            { ID := 2, SeasonNumber := 1 },
            { ID := 3, SeasonNumber := 2 }].filter (fun e => e.SeasonNumber == k) :=
  GetSeriesFull_groups_by_season {}
    [{ ID := 1, SeasonNumber := 2 }, { ID := 2, SeasonNumber := 1 },
     { ID := 3, SeasonNumber := 2 }] rfl

/-! ## Claim C9: UserRatingsSeries indexes without an emptiness check -/

/-- C9: on a well-formed ratings response holding zero series-rating
elements, the result handling of UserRatingsSeries hits the out-of-bounds
index 0 of the empty slice — a runtime panic, never a returned error; the
normal return is reached exactly when at least one series rating is
present, returning the first one together with the episode ratings. -/
theorem UserRatingsSeries_empty_panics :
    (∀ eps : List Rating, UserRatingsSeries_result ⟨[], eps⟩ =
      GoOutcome.panic "runtime error: index out of range [0] with length 0") ∧
    (∀ result : RatingResult, ∀ msg : String,
      UserRatingsSeries_result result ≠ GoOutcome.err msg) ∧
    (∀ result : RatingResult, result.SerRatings ≠ [] →
      ∃ r rest, result.SerRatings = r :: rest ∧
        UserRatingsSeries_result result = GoOutcome.ok (r, result.EpRatings)) := by
  refine ⟨fun eps => rfl, ?_, ?_⟩
  · intro result msg
    rcases result with ⟨sers, eps⟩
    cases sers <;> simp [UserRatingsSeries_result]
  · intro result hne
    rcases result with ⟨sers, eps⟩
    cases sers with
    | nil => exact absurd rfl hne
    | cons r rest => exact ⟨r, rest, rfl, rfl⟩

/-- C9 witness: the theorem applied at the empty response and at a
one-element response. -/
theorem UserRatingsSeries_empty_panics_witness :
    (UserRatingsSeries_result ⟨[], [⟨7, 8, 9⟩]⟩ =
      GoOutcome.panic "runtime error: index out of range [0] with length 0") ∧
    ∃ r rest, (RatingResult.mk [⟨1, 2, 3⟩] []).SerRatings = r :: rest ∧
      UserRatingsSeries_result ⟨[⟨1, 2, 3⟩], []⟩ =
        GoOutcome.ok (r, (RatingResult.mk [⟨1, 2, 3⟩] []).EpRatings) :=
  ⟨UserRatingsSeries_empty_panics.1 [⟨7, 8, 9⟩],
   UserRatingsSeries_empty_panics.2.2 ⟨[⟨1, 2, 3⟩], []⟩ (by decide)⟩

/-! ## Claim C10: the legacy SearchSeries pre-allocation

`make([]Series, maxResults)` pre-fills the slice with `maxResults`
(clamped to the number of matches) zero-value series, and the loop then
appends behind them — so the `len(seriesList) == maxResults` break can
never fire after an append, every successful fetch is appended, and a
successful run returns `clamped + fetched` elements.
-/

/-- The loop invariant: once the accumulator is at least maxResults long,
the break never fires, so an error-free run returns the accumulator
followed by every successfully fetched series. -/
theorem searchSeriesLoop_no_error (fetch : Nat → FetchResult) (m : Nat) :
    ∀ (rs : List String) (acc out : List LegacySeries), m ≤ acc.length →
      searchSeriesLoop fetch m rs acc = (out, none) →
      out = acc ++ collectFetched fetch rs := by
  intro rs
  induction rs with
  | nil =>
    intro acc out _ h
    simp only [searchSeriesLoop, Prod.mk.injEq] at h
    simp [collectFetched, ← h.1]
  | cons idText rest ih =>
    intro acc out hm h
    simp only [searchSeriesLoop] at h
    cases hp : goParseUint idText with
    | none =>
      simp only [hp] at h
      simpa [collectFetched, hp] using ih acc out hm h
    | some id =>
      simp only [hp] at h
      cases hf : fetch id with
      | syntaxError msg =>
        simp only [hf] at h
        simpa [collectFetched, hp, hf] using ih acc out hm h
      | otherError msg =>
        simp only [hf, Prod.mk.injEq] at h
        exact absurd h.2 (by simp)
      | ok series =>
        simp only [hf] at h
        have hlen : ¬((acc ++ [series]).length = m) := by
          simp only [List.length_append, List.length_cons, List.length_nil]
          omega
        rw [if_neg hlen] at h
        have := ih (acc ++ [series]) out (by simp; omega) h
        simp only [collectFetched, hp, hf]
        simp [this, List.append_assoc]

/-- C10 counterexample: a search which succeeds (nil error) after finding
one id in the page, but whose single fetch fails with an XML syntax error,
returns a slice of length exactly min(maxResults, matches) — consisting of
the placeholder only — not a longer one. -/
theorem SearchSeries_length_counterexample :
    (SearchSeries_model (fun _ => FetchResult.syntaxError "EOF") ["123"] 5).2 = none ∧
    (SearchSeries_model (fun _ => FetchResult.syntaxError "EOF") ["123"] 5).1.length =
      min 5 (["123"] : List String).length := by
  constructor
  · rfl
  · rfl

/-- C10 (amended): in every error-free legacy SearchSeries run, the
returned slice is the clamped count min(matches, maxResults) of zero-value
placeholder series followed by all successfully fetched series; whenever
at least one id is fetched successfully, its total length therefore
exceeds that clamped intended count. -/
theorem SearchSeries_padded (fetch : Nat → FetchResult) (results : List String)
    (maxResults : Nat) (out : List LegacySeries)
    (h : SearchSeries_model fetch results maxResults = (out, none)) :
    out = List.replicate (min results.length maxResults) zeroLegacySeries ++
        collectFetched fetch results ∧
    (collectFetched fetch results ≠ [] →
      out.length > min results.length maxResults) := by
  have hclamp : (if results.length < maxResults then results.length else maxResults) =
      min results.length maxResults := by
    split <;> omega
  simp only [SearchSeries_model, hclamp] at h
  have hout := searchSeriesLoop_no_error fetch (min results.length maxResults) results
    (List.replicate (min results.length maxResults) zeroLegacySeries) out (by simp) h
  refine ⟨hout, ?_⟩
  intro hne
  have : 1 ≤ (collectFetched fetch results).length := by
    cases hcf : collectFetched fetch results with
    | nil => exact absurd hcf hne
    | cons a l => simp
  simp only [hout, List.length_append, List.length_replicate]
  omega

/-- C10 witness: the amended theorem applied with two scraped ids, a fetch
that always succeeds, and maxResults 1: one placeholder followed by both
fetched series, length 3 exceeding the clamped count 1. -/
theorem SearchSeries_padded_witness :
    ([zeroLegacySeries, zeroLegacySeries, zeroLegacySeries] : List LegacySeries) =
      List.replicate (min (["1", "2"] : List String).length 1) zeroLegacySeries ++
        collectFetched (fun _ => FetchResult.ok zeroLegacySeries) ["1", "2"] ∧
    (collectFetched (fun _ => FetchResult.ok zeroLegacySeries) ["1", "2"] ≠ [] →
      ([zeroLegacySeries, zeroLegacySeries, zeroLegacySeries] : List LegacySeries).length >
        min (["1", "2"] : List String).length 1) :=
  SearchSeries_padded (fun _ => FetchResult.ok zeroLegacySeries) ["1", "2"] 1
    [zeroLegacySeries, zeroLegacySeries, zeroLegacySeries] rfl

end GoTvdb
